import Mathlib

/-!
Verification of the trading-telemetry pipeline against its specification.

The definitions below are shallow embeddings of the Python sources:

* `trading_app/features/client.py` — `PublishResult`, `TradingClient`
  (`_publish_fast`, `_publish_with_benchmark`, `get_latency_stats`, the
  10,000-sample ring buffer);
* `metrics_sidecar/lib/models.py` and `metrics_sidecar/lib/zmq_sub.py` —
  the pydantic wire models and `TradeSubscriber._process_message`;
* `trading_app/utils/task_manager.py` — `TaskManager.catch_breaking_errors`;
* `trading_app/benchmark/analyzer.py` — `LatencyAnalyzer.analyze_latency_degradation`.

External effects (the ZMQ socket, the monotonic clock, raised exceptions,
the registered handler) are modelled as explicit inputs; machine floats are
idealized as rationals, and the Python percentile indices `int(n * 0.95)`,
`int(n * 0.99)` are embedded as the natural-number floors `95*n/100`,
`99*n/100`, which agree with the float computation for every buffer size
the 10,000-capacity ring can reach.
-/

namespace TradingTelemetry

/-- Result of one publish attempt: the `PublishResult` dataclass of
`client.py` (fields `ok`, `error`, `elapsed_ms`, `queue_full`). -/
structure PublishResult where
  ok : Bool
  error : Option String := none
  elapsedMs : Option ℚ := none
  queueFull : Bool := false
deriving DecidableEq, Repr

/-- Outcome of the underlying ZMQ `send_string` attempt, an external input
to the publish path: the socket either accepts the message, raises
`zmq.Again` (outbound queue full), or raises some other exception whose
string is `msg`. -/
inductive SendOutcome where
  | sent
  | again
  | err (msg : String)
deriving DecidableEq, Repr

/-- Ring-buffer capacity: `self._max_samples = 10000` in
`TradingClient.__init__`. -/
def maxSamples : ℕ := 10000

/-- The sample-store step of `_publish_with_benchmark` (lines 71–73):
`if len(self._publish_times) >= self._max_samples: self._publish_times.pop(0)`
followed by `self._publish_times.append(elapsed_ns)`. -/
def appendSample (buf : List ℕ) (x : ℕ) : List ℕ :=
  if maxSamples ≤ buf.length then buf.tail ++ [x] else buf ++ [x]

/-- `TradingClient._publish_fast`: the plain-mode send path. It never
touches the sample buffer and never reads the clock. -/
def publishFast (o : SendOutcome) : PublishResult :=
  match o with
  | .sent => { ok := true }
  | .again => { ok := false, error := some "queue_full", queueFull := true }
  | .err m => { ok := false, error := some m }

/-- `TradingClient._publish_with_benchmark`: the instrumented send path.
`elapsedNs` is the clock reading `time.perf_counter_ns() - t0` that the
code takes after the send attempt returns or raises `zmq.Again`.
On success the sample is stored and the elapsed time returned; on
`zmq.Again` the elapsed time is returned but no sample is stored; on any
other exception neither happens. -/
def publishWithBenchmark (o : SendOutcome) (elapsedNs : ℕ) (buf : List ℕ) :
    List ℕ × PublishResult :=
  match o with
  | .sent =>
      (appendSample buf elapsedNs,
       { ok := true, elapsedMs := some ((elapsedNs : ℚ) / 1000000) })
  | .again =>
      (buf,
       { ok := false, error := some "queue_full", queueFull := true,
         elapsedMs := some ((elapsedNs : ℚ) / 1000000) })
  | .err m =>
      (buf, { ok := false, error := some m })

/-- The mutable state of one `TradingClient`: the mode flag
`_benchmarking` and the sample list `_publish_times`. -/
structure ClientState where
  benchmarking : Bool
  publishTimes : List ℕ
deriving DecidableEq, Repr

/-- A freshly constructed client (`__init__`): empty sample list. -/
def newClient (benchmarking : Bool) : ClientState :=
  { benchmarking := benchmarking, publishTimes := [] }

/-- `TradingClient.publish_json`: dispatches on the mode flag. -/
def publishJson (st : ClientState) (o : SendOutcome) (elapsedNs : ℕ) :
    ClientState × PublishResult :=
  if st.benchmarking then
    let r := publishWithBenchmark o elapsedNs st.publishTimes
    ({ st with publishTimes := r.1 }, r.2)
  else
    (st, publishFast o)

/-- A sequence of `publish_json` calls, each with its send outcome and
clock reading, threaded through the client state. -/
def runSends : ClientState → List (SendOutcome × ℕ) → ClientState × List PublishResult
  | st, [] => (st, [])
  | st, s :: rest =>
      let r := publishJson st s.1 s.2
      let rec' := runSends r.1 rest
      (rec'.1, r.2 :: rec'.2)

/-- Number of sends in a sequence whose transport outcome was success. -/
def countSent (sends : List (SendOutcome × ℕ)) : ℕ :=
  (sends.filter (fun s => decide (s.1 = SendOutcome.sent))).length

/-- The latency-statistics record produced by `get_latency_stats` when the
sample buffer is non-empty (all values in microseconds). -/
structure LatencyStats where
  count : ℕ
  minUs : ℚ
  maxUs : ℚ
  meanUs : ℚ
  p50Us : ℚ
  p95Us : ℚ
  p99Us : ℚ
deriving DecidableEq, Repr

/-- The statistics dictionary built from the sorted microsecond list
(`get_latency_stats` lines 96–105).  The Python indices `n // 2`,
`int(n * 0.95)`, `int(n * 0.99)` are `n / 2`, `95 * n / 100`,
`99 * n / 100` in natural-number division. -/
def statsOfSorted (s : List ℚ) : LatencyStats :=
  let n := s.length
  { count := n
    minUs := s.getD 0 0
    maxUs := s.getD (n - 1) 0
    meanUs := s.sum / n
    p50Us := s.getD (n / 2) 0
    p95Us := s.getD (95 * n / 100) 0
    p99Us := s.getD (99 * n / 100) 0 }

/-- Conversion of one nanosecond sample to microseconds
(`t / 1000.0` in `get_latency_stats` line 93). -/
def toUs (t : ℕ) : ℚ := (t : ℚ) / 1000

/-- `TradingClient.get_latency_stats`: empty buffer yields the empty
dictionary (`none`); otherwise the samples are converted to microseconds,
sorted, and summarized. -/
def getLatencyStats (publishTimes : List ℕ) : Option LatencyStats :=
  if publishTimes.isEmpty then none
  else
    some (statsOfSorted (List.insertionSort (· ≤ ·) (publishTimes.map toUs)))

/-! ### Claim C2 — publish outcome invariant -/

/-- Claim C2 (counterexample): the code forwards `str(e)` of the caught
exception verbatim, so a transport failure whose exception text is empty
produces `ok = false` with `error = some ""` — the error field is set but
not a non-empty message, refuting the claim as stated. -/
theorem publish_outcome_empty_error_cex :
    (publishFast (SendOutcome.err "")).ok = false ∧
    (publishFast (SendOutcome.err "")).error = some "" ∧
    ¬ (∃ msg, (publishFast (SendOutcome.err "")).error = some msg ∧ msg ≠ "") := by
  refine ⟨rfl, rfl, ?_⟩
  rintro ⟨msg, hm, hne⟩
  have h' : (some "" : Option String) = some msg := hm
  exact hne (Option.some.inj h').symm

/-- Claim C2 (amended): for every send attempt in either mode, exactly one
of «ok with no error and no queue-full flag» or «not ok with the error
field set» holds; in particular `queue_full = true` implies `ok = false`. -/
theorem publish_outcome_invariant (st : ClientState) (o : SendOutcome) (e : ℕ) :
    ((publishJson st o e).2.ok = true ∧ (publishJson st o e).2.error = none ∧
      (publishJson st o e).2.queueFull = false) ∨
    ((publishJson st o e).2.ok = false ∧ ((publishJson st o e).2.error).isSome = true) := by
  unfold publishJson
  by_cases hb : st.benchmarking <;>
    cases o <;> simp [hb, publishFast, publishWithBenchmark]

/-! ### Claim C1 — instrumented-mode side effects -/

/-- Claim C1 (counterexample): an instrumented send that fails with
`zmq.Again` (queue full) leaves the sample buffer untouched — no sample is
appended — and an instrumented send that fails with any other transport
error additionally returns no elapsed time. -/
theorem instrumented_failure_no_sample_cex :
    (publishWithBenchmark SendOutcome.again 500 []).1 = [] ∧
    (publishWithBenchmark SendOutcome.again 500 []).1.length ≠ 1 ∧
    (publishWithBenchmark (SendOutcome.err "boom") 500 []).1 = [] ∧
    (publishWithBenchmark (SendOutcome.err "boom") 500 []).2.elapsedMs = none := by
  refine ⟨rfl, ?_, rfl, rfl⟩
  intro h
  simp [publishWithBenchmark] at h

/-- Claim C1 (amended): in instrumented mode, a successful send appends
exactly one sample (evicting the oldest at capacity) and returns the
elapsed time; a queue-full failure measures and returns the elapsed time
but appends no sample; any other transport failure appends no sample and
returns no elapsed time. -/
theorem instrumented_send_effects (e : ℕ) (buf : List ℕ) (m : String)
    (hcap : buf.length ≤ maxSamples) :
    ((publishWithBenchmark SendOutcome.sent e buf).1.length
        = min (buf.length + 1) maxSamples ∧
      (publishWithBenchmark SendOutcome.sent e buf).2.ok = true ∧
      (publishWithBenchmark SendOutcome.sent e buf).2.elapsedMs
        = some ((e : ℚ) / 1000000)) ∧
    ((publishWithBenchmark SendOutcome.again e buf).1 = buf ∧
      (publishWithBenchmark SendOutcome.again e buf).2.ok = false ∧
      (publishWithBenchmark SendOutcome.again e buf).2.queueFull = true ∧
      (publishWithBenchmark SendOutcome.again e buf).2.elapsedMs
        = some ((e : ℚ) / 1000000)) ∧
    ((publishWithBenchmark (SendOutcome.err m) e buf).1 = buf ∧
      (publishWithBenchmark (SendOutcome.err m) e buf).2.ok = false ∧
      (publishWithBenchmark (SendOutcome.err m) e buf).2.elapsedMs = none) := by
  refine ⟨⟨?_, rfl, rfl⟩, ⟨rfl, rfl, rfl, rfl⟩, rfl, rfl, rfl⟩
  simp only [publishWithBenchmark, appendSample]
  rcases Nat.lt_or_ge buf.length maxSamples with hlt | hge
  · rw [if_neg (by omega)]
    simp [List.length_append]
    omega
  · have heq : buf.length = maxSamples := le_antisymm hcap hge
    rw [if_pos (by omega)]
    have hpos : 0 < buf.length := by
      rw [heq]; norm_num [maxSamples]
    simp [List.length_append, List.length_tail]
    omega

/-- Claim C1 (witness for `instrumented_send_effects`). -/
theorem instrumented_send_effects_witness :
    (([] : List ℕ).length ≤ maxSamples) ∧
    ((publishWithBenchmark SendOutcome.sent 500 []).1.length
        = min (([] : List ℕ).length + 1) maxSamples ∧
      (publishWithBenchmark SendOutcome.sent 500 []).2.ok = true ∧
      (publishWithBenchmark SendOutcome.sent 500 []).2.elapsedMs
        = some ((500 : ℚ) / 1000000)) ∧
    ((publishWithBenchmark SendOutcome.again 500 []).1 = [] ∧
      (publishWithBenchmark SendOutcome.again 500 []).2.ok = false ∧
      (publishWithBenchmark SendOutcome.again 500 []).2.queueFull = true ∧
      (publishWithBenchmark SendOutcome.again 500 []).2.elapsedMs
        = some ((500 : ℚ) / 1000000)) ∧
    ((publishWithBenchmark (SendOutcome.err "boom") 500 []).1 = [] ∧
      (publishWithBenchmark (SendOutcome.err "boom") 500 []).2.ok = false ∧
      (publishWithBenchmark (SendOutcome.err "boom") 500 []).2.elapsedMs = none) :=
  ⟨by norm_num [maxSamples], instrumented_send_effects 500 [] "boom" (by norm_num [maxSamples])⟩

/-! ### Sorted-list access lemmas for the statistics -/

lemma sorted_getD_mono {l : List ℚ} (h : l.Sorted (· ≤ ·)) {i j : ℕ}
    (hij : i ≤ j) (hj : j < l.length) : l.getD i 0 ≤ l.getD j 0 := by
  have hi : i < l.length := lt_of_le_of_lt hij hj
  rw [List.getD_eq_getElem l 0 hi, List.getD_eq_getElem l 0 hj]
  have := h.rel_get_of_le (a := ⟨i, hi⟩) (b := ⟨j, hj⟩) hij
  simpa using this

lemma length_insertionSort_map (buf : List ℕ) :
    (List.insertionSort (· ≤ ·) (buf.map toUs)).length = buf.length := by
  rw [(List.perm_insertionSort (· ≤ ·) (buf.map toUs)).length_eq]
  simp

/-! ### Claim C4 — percentile monotonicity -/

/-- Claim C4: for every non-empty sample buffer the statistics are
percentile-monotone: `min ≤ p50 ≤ p95 ≤ p99 ≤ max`. -/
theorem latency_stats_percentiles_monotone (buf : List ℕ) (hne : buf ≠ []) :
    ∃ s, getLatencyStats buf = some s ∧
      s.minUs ≤ s.p50Us ∧ s.p50Us ≤ s.p95Us ∧ s.p95Us ≤ s.p99Us ∧
      s.p99Us ≤ s.maxUs := by
  have hempty : buf.isEmpty = false := by
    cases buf with
    | nil => exact absurd rfl hne
    | cons a t => rfl
  set l := List.insertionSort (· ≤ ·) (buf.map toUs) with hl
  have hsorted : l.Sorted (· ≤ ·) := List.sorted_insertionSort _ _
  have hlen : l.length = buf.length := length_insertionSort_map buf
  have hpos : 0 < l.length := by
    rw [hlen]
    exact List.length_pos.mpr hne
  refine ⟨statsOfSorted l, ?_, ?_, ?_, ?_, ?_⟩
  · simp [getLatencyStats, hempty, hl]
  · exact sorted_getD_mono hsorted (Nat.zero_le _) (by omega)
  · exact sorted_getD_mono hsorted (by omega) (by omega)
  · exact sorted_getD_mono hsorted (by omega) (by omega)
  · exact sorted_getD_mono hsorted (by omega) (by omega)

/-- Claim C4 (witness for `latency_stats_percentiles_monotone`). -/
theorem latency_stats_percentiles_monotone_witness :
    ([3, 1, 2] : List ℕ) ≠ [] ∧
    (∃ s, getLatencyStats [3, 1, 2] = some s ∧
      s.minUs ≤ s.p50Us ∧ s.p50Us ≤ s.p95Us ∧ s.p95Us ≤ s.p99Us ∧
      s.p99Us ≤ s.maxUs) :=
  ⟨by simp, latency_stats_percentiles_monotone [3, 1, 2] (by simp)⟩

/-! ### Claim C5 — totality, index bounds, purity of the statistics -/

/-- Claim C5: `get_latency_stats` is total — the empty buffer yields the
explicit empty result, every percentile index lies strictly below the
sample count (so within `[0, count-1]`), and the result is a pure function
of the multiset of samples (invariant under permutation of the buffer). -/
theorem latency_stats_total_and_pure :
    getLatencyStats [] = none ∧
    (∀ buf : List ℕ, buf ≠ [] →
      ((getLatencyStats buf).isSome = true ∧
        buf.length / 2 < buf.length ∧
        95 * buf.length / 100 < buf.length ∧
        99 * buf.length / 100 < buf.length)) ∧
    (∀ b₁ b₂ : List ℕ, b₁.Perm b₂ →
      getLatencyStats b₁ = getLatencyStats b₂) := by
  refine ⟨rfl, ?_, ?_⟩
  · intro buf hne
    have hpos : 0 < buf.length := List.length_pos.mpr hne
    have hempty : buf.isEmpty = false := by
      cases buf with
      | nil => exact absurd rfl hne
      | cons a t => rfl
    refine ⟨by simp [getLatencyStats, hempty], by omega, by omega, by omega⟩
  · intro b₁ b₂ hperm
    have hmapperm : (b₁.map toUs).Perm (b₂.map toUs) := hperm.map _
    have hsortperm :
        (List.insertionSort (· ≤ ·) (b₁.map toUs)).Perm
          (List.insertionSort (· ≤ ·) (b₂.map toUs)) :=
      ((List.perm_insertionSort _ _).trans hmapperm).trans
        (List.perm_insertionSort _ _).symm
    have hsorteq :
        List.insertionSort (· ≤ ·) (b₁.map toUs)
          = List.insertionSort (· ≤ ·) (b₂.map toUs) :=
      List.eq_of_perm_of_sorted hsortperm
        (List.sorted_insertionSort _ _) (List.sorted_insertionSort _ _)
    have hlen : b₁.isEmpty = b₂.isEmpty := by
      cases b₁ with
      | nil => rw [hperm.nil_eq]
      | cons a t =>
          cases b₂ with
          | nil => exact absurd hperm.symm.nil_eq (by simp)
          | cons b u => rfl
    unfold getLatencyStats
    rw [hlen, hsorteq]

/-- Claim C5 (witness for `latency_stats_total_and_pure`). -/
theorem latency_stats_total_and_pure_witness :
    (([5] : List ℕ) ≠ [] ∧ (getLatencyStats [5]).isSome = true) ∧
    (([1, 2] : List ℕ).Perm [2, 1] ∧
      getLatencyStats [1, 2] = getLatencyStats [2, 1]) := by
  have hperm : ([1, 2] : List ℕ).Perm [2, 1] := List.Perm.swap 2 1 []
  exact ⟨⟨by simp, (latency_stats_total_and_pure.2.1 [5] (by simp)).1⟩,
    ⟨hperm, latency_stats_total_and_pure.2.2 [1, 2] [2, 1] hperm⟩⟩

/-! ### Claim C3 — FIFO ring of capacity 10,000 -/

lemma appendSample_length (buf : List ℕ) (x : ℕ) (h : buf.length ≤ maxSamples) :
    (appendSample buf x).length = min (buf.length + 1) maxSamples := by
  unfold appendSample
  rcases Nat.lt_or_ge buf.length maxSamples with hlt | hge
  · rw [if_neg (by omega)]
    simp [List.length_append]
    omega
  · have heq : buf.length = maxSamples := le_antisymm h hge
    rw [if_pos (by omega)]
    have hpos : 0 < buf.length := by rw [heq]; norm_num [maxSamples]
    simp [List.length_append, List.length_tail]
    omega

lemma runSends_state_cons (st : ClientState) (s : SendOutcome × ℕ)
    (rest : List (SendOutcome × ℕ)) :
    (runSends st (s :: rest)).1 = (runSends (publishJson st s.1 s.2).1 rest).1 := rfl

lemma publishJson_true_sent (buf : List ℕ) (e : ℕ) :
    (publishJson ⟨true, buf⟩ SendOutcome.sent e).1 = ⟨true, appendSample buf e⟩ := rfl

lemma publishJson_true_again (buf : List ℕ) (e : ℕ) :
    (publishJson ⟨true, buf⟩ SendOutcome.again e).1 = ⟨true, buf⟩ := rfl

lemma publishJson_true_err (buf : List ℕ) (e : ℕ) (m : String) :
    (publishJson ⟨true, buf⟩ (SendOutcome.err m) e).1 = ⟨true, buf⟩ := rfl

lemma countSent_cons_sent (e : ℕ) (rest : List (SendOutcome × ℕ)) :
    countSent ((SendOutcome.sent, e) :: rest) = countSent rest + 1 := by
  simp [countSent, List.filter_cons]

lemma countSent_cons_of_ne (o : SendOutcome) (e : ℕ)
    (rest : List (SendOutcome × ℕ)) (h : o ≠ SendOutcome.sent) :
    countSent ((o, e) :: rest) = countSent rest := by
  simp [countSent, List.filter_cons, h]

lemma runSends_benchmark_length (sends : List (SendOutcome × ℕ)) :
    ∀ buf : List ℕ, buf.length ≤ maxSamples →
      ((runSends ⟨true, buf⟩ sends).1.publishTimes).length
        = min (buf.length + countSent sends) maxSamples := by
  induction sends with
  | nil =>
      intro buf h
      simp only [runSends, countSent, List.filter_nil, List.length_nil]
      omega
  | cons s rest ih =>
      intro buf h
      obtain ⟨o, e⟩ := s
      cases o with
      | sent =>
          have hlen := appendSample_length buf e h
          have hle : (appendSample buf e).length ≤ maxSamples := by omega
          rw [runSends_state_cons, publishJson_true_sent, countSent_cons_sent,
            ih (appendSample buf e) hle, hlen]
          omega
      | again =>
          rw [runSends_state_cons, publishJson_true_again,
            countSent_cons_of_ne _ _ _ (by simp), ih buf h]
      | err m =>
          rw [runSends_state_cons, publishJson_true_err,
            countSent_cons_of_ne _ _ _ (by simp), ih buf h]

/-- Claim C3 (counterexample): one instrumented send that fails with
queue-full is an instrumented send, yet it appends nothing, so after a
sequence of `N = 1` instrumented sends the statistics are still the empty
result rather than reporting `count = 1`. -/
theorem ring_buffer_count_cex :
    ((runSends (newClient true) [(SendOutcome.again, 500)]).1.publishTimes).length = 0 ∧
    getLatencyStats
      ((runSends (newClient true) [(SendOutcome.again, 500)]).1.publishTimes) = none := by
  constructor <;> rfl

/-- Claim C3 (amended): the recorder is a true FIFO ring of capacity
10,000 over the *successful* instrumented sends: after any sequence of
instrumented sends, the number of stored samples is the number of
successful sends capped at 10,000, and an append at capacity evicts the
oldest sample first (the tail is kept and the new sample enters). -/
theorem ring_buffer_fifo (sends : List (SendOutcome × ℕ)) (buf : List ℕ) (x : ℕ)
    (hcap : buf.length = maxSamples) :
    ((runSends (newClient true) sends).1.publishTimes).length
      = min (countSent sends) maxSamples ∧
    appendSample buf x = buf.tail ++ [x] := by
  constructor
  · have h := runSends_benchmark_length sends [] (by norm_num [maxSamples])
    rw [show newClient true = ⟨true, []⟩ from rfl, h, List.length_nil, Nat.zero_add]
  · unfold appendSample
    rw [if_pos (by omega)]

/-- Claim C3 (witness for `ring_buffer_fifo`). -/
theorem ring_buffer_fifo_witness :
    (List.replicate 10000 (0 : ℕ)).length = maxSamples ∧
    (((runSends (newClient true) [(SendOutcome.sent, 500)]).1.publishTimes).length
        = min (countSent [(SendOutcome.sent, 500)]) maxSamples ∧
      appendSample (List.replicate 10000 (0 : ℕ)) 7
        = (List.replicate 10000 (0 : ℕ)).tail ++ [7]) :=
  ⟨by rw [List.length_replicate]; rfl,
   ring_buffer_fifo [(SendOutcome.sent, 500)] (List.replicate 10000 0) 7
     (by rw [List.length_replicate]; rfl)⟩

/-! ### Claim C10 — plain mode never touches the recorder -/

lemma runSends_plain_state (sends : List (SendOutcome × ℕ)) :
    ∀ st : ClientState, st.benchmarking = false →
      (runSends st sends).1 = st ∧
      ∀ r ∈ (runSends st sends).2, r.elapsedMs = none := by
  induction sends with
  | nil =>
      intro st h
      exact ⟨rfl, by intro r hr; cases hr⟩
  | cons s rest ih =>
      intro st h
      obtain ⟨o, e⟩ := s
      have hstep : publishJson st o e = (st, publishFast o) := by
        unfold publishJson
        rw [h]
        simp
      have hrec := ih st h
      constructor
      · show (runSends (publishJson st o e).1 rest).1 = st
        rw [hstep]
        exact hrec.1
      · intro r hr
        have : r = (publishJson st o e).2 ∨ r ∈ (runSends (publishJson st o e).1 rest).2 := by
          simpa [runSends] using hr
        rcases this with hfirst | hrest
        · rw [hfirst, hstep]
          cases o <;> rfl
        · rw [hstep] at hrest
          exact hrec.2 r hrest

/-- Claim C10: a plain-mode (non-instrumented) client is never changed by
a send attempt, whatever its outcome — in particular no sample is ever
appended — so after any sequence of plain-mode sends the latency
statistics are still the empty result, and no returned outcome carries an
elapsed time. -/
theorem plain_mode_frame :
    (∀ (st : ClientState) (o : SendOutcome) (e : ℕ), st.benchmarking = false →
      (publishJson st o e).1 = st ∧ (publishJson st o e).2.elapsedMs = none) ∧
    (∀ sends : List (SendOutcome × ℕ),
      getLatencyStats ((runSends (newClient false) sends).1.publishTimes) = none ∧
      ∀ r ∈ (runSends (newClient false) sends).2, r.elapsedMs = none) := by
  constructor
  · intro st o e h
    have hstep : publishJson st o e = (st, publishFast o) := by
      unfold publishJson
      rw [h]
      simp
    rw [hstep]
    exact ⟨rfl, by cases o <;> rfl⟩
  · intro sends
    have h := runSends_plain_state sends (newClient false) rfl
    refine ⟨?_, h.2⟩
    rw [h.1]
    rfl

/-- Claim C10 (witness for `plain_mode_frame`). -/
theorem plain_mode_frame_witness :
    ((⟨false, []⟩ : ClientState).benchmarking = false ∧
      (publishJson ⟨false, []⟩ SendOutcome.sent 500).1 = ⟨false, []⟩ ∧
      (publishJson ⟨false, []⟩ SendOutcome.sent 500).2.elapsedMs = none) ∧
    (getLatencyStats
        ((runSends (newClient false) [(SendOutcome.sent, 500)]).1.publishTimes) = none) :=
  ⟨⟨rfl, plain_mode_frame.1 ⟨false, []⟩ SendOutcome.sent 500 rfl⟩,
   (plain_mode_frame.2 [(SendOutcome.sent, 500)]).1⟩

/-! ### Metrics-sidecar ingestion (`zmq_sub.py`, `models.py`) -/

/-- A JSON value as produced by `json.loads`. -/
inductive JValue where
  | jnull
  | jbool (b : Bool)
  | jnum (q : ℚ)
  | jstr (s : String)
  | jarr (elems : List JValue)
  | jobj (fields : List (String × JValue))

/-- First-match association lookup on the fields of a JSON object
(post-`json.loads` objects have unique keys). -/
def lookupField : List (String × JValue) → String → Option JValue
  | [], _ => none
  | (k, v) :: rest, key => if k = key then some v else lookupField rest key

/-- Pydantic lax validation of a required string field. -/
def reqStr (fields : List (String × JValue)) (key : String) : Except String String :=
  match lookupField fields key with
  | some (JValue.jstr s) => Except.ok s
  | _ => Except.error (key ++ ": string required")

/-- Pydantic lax validation of a required float field (JSON numbers only). -/
def reqFloat (fields : List (String × JValue)) (key : String) : Except String ℚ :=
  match lookupField fields key with
  | some (JValue.jnum q) => Except.ok q
  | _ => Except.error (key ++ ": number required")

/-- Pydantic lax validation of a required int field: a JSON number with no
fractional part. -/
def reqInt (fields : List (String × JValue)) (key : String) : Except String ℤ :=
  match lookupField fields key with
  | some (JValue.jnum q) =>
      if q.den = 1 then Except.ok q.num else Except.error (key ++ ": int required")
  | _ => Except.error (key ++ ": int required")

/-- Pydantic validation of an optional string field with a default. -/
def optStr (fields : List (String × JValue)) (key : String) (dflt : String) :
    Except String String :=
  match lookupField fields key with
  | none => Except.ok dflt
  | some (JValue.jstr s) => Except.ok s
  | some _ => Except.error (key ++ ": string required")

/-- Pydantic validation of an optional int field with a default. -/
def optInt (fields : List (String × JValue)) (key : String) (dflt : ℤ) :
    Except String ℤ :=
  match lookupField fields key with
  | none => Except.ok dflt
  | some (JValue.jnum q) =>
      if q.den = 1 then Except.ok q.num else Except.error (key ++ ": int required")
  | some _ => Except.error (key ++ ": int required")

/-- The decoded `TradeMsg` pydantic model. -/
structure TradeMsg where
  side : String
  qty : ℚ
  ts : ℚ
deriving DecidableEq, Repr

/-- The decoded `BenchmarkMsg` pydantic model. -/
structure BenchmarkMsg where
  testType : String
  testName : String
  timestamp : ℚ
  config : List (String × JValue)
  totalTrades : ℤ
  durationSeconds : ℚ
  tradesPerSecond : ℚ
  queueFullCount : ℤ
  errorCount : ℤ
  latencyStats : List (String × ℚ)

/-- The decoded `BenchmarkStatusMsg` pydantic model. -/
structure BenchmarkStatusMsg where
  status : String
  testName : String
  timestamp : ℚ
  message : String
deriving DecidableEq, Repr

/-- The `TelemetryMsg` union of `models.py`. -/
inductive TelemetryMsg where
  | trade (m : TradeMsg)
  | benchmark (m : BenchmarkMsg)
  | benchmarkStatus (m : BenchmarkStatusMsg)

/-- Validation of `TradeMsg(**payload)`: `side` is the literal `buy` or
`sell`, `qty` a float that is `>= 0`, `ts` a float. -/
def decodeTrade (fields : List (String × JValue)) : Except String TradeMsg := do
  let side ← reqStr fields "side"
  if side = "buy" ∨ side = "sell" then
    let qty ← reqFloat fields "qty"
    if qty < 0 then Except.error "qty must be >= 0"
    else do
      let ts ← reqFloat fields "ts"
      Except.ok { side := side, qty := qty, ts := ts }
  else Except.error "side: literal buy or sell required"

/-- Validation of the `latency_stats` field: a map of names to floats,
defaulting to the empty map when absent. -/
def decodeLatencyStatsField (fields : List (String × JValue)) :
    Except String (List (String × ℚ)) :=
  match lookupField fields "latency_stats" with
  | none => Except.ok []
  | some (JValue.jobj entries) =>
      let numeric := entries.all (fun kv => match kv.2 with
        | JValue.jnum _ => true
        | _ => false)
      if numeric then
        Except.ok (entries.map (fun kv => (kv.1, match kv.2 with
          | JValue.jnum q => q
          | _ => 0)))
      else Except.error "latency_stats: floats required"
  | some _ => Except.error "latency_stats: dict required"

/-- Validation of `BenchmarkMsg(**payload)`. -/
def decodeBenchmark (fields : List (String × JValue)) : Except String BenchmarkMsg := do
  let testType ← reqStr fields "test_type"
  if testType = "burst" ∨ testType = "sustained" ∨ testType = "profile" then do
    let testName ← reqStr fields "test_name"
    let timestamp ← reqFloat fields "timestamp"
    match lookupField fields "config" with
    | some (JValue.jobj cfg) => do
        let totalTrades ← reqInt fields "total_trades"
        let durationSeconds ← reqFloat fields "duration_seconds"
        let tradesPerSecond ← reqFloat fields "trades_per_second"
        let queueFullCount ← optInt fields "queue_full_count" 0
        let errorCount ← optInt fields "error_count" 0
        let latencyStats ← decodeLatencyStatsField fields
        Except.ok ⟨testType, testName, timestamp, cfg, totalTrades,
          durationSeconds, tradesPerSecond, queueFullCount, errorCount, latencyStats⟩
    | _ => Except.error "config: dict required"
  else Except.error "test_type: literal burst, sustained or profile required"

/-- The literal admitted by `BenchmarkStatusMsg.status` in `models.py`
line 46: `Literal["started", "running", "completed", "failed"]` — note
that `"alert"` is not among them. -/
def statusLiterals : List String := ["started", "running", "completed", "failed"]

/-- Validation of `BenchmarkStatusMsg(**payload)`. -/
def decodeBenchmarkStatus (fields : List (String × JValue)) :
    Except String BenchmarkStatusMsg := do
  let status ← reqStr fields "status"
  if statusLiterals.contains status then do
    let testName ← reqStr fields "test_name"
    let timestamp ← reqFloat fields "timestamp"
    let message ← optStr fields "message" ""
    Except.ok ⟨status, testName, timestamp, message⟩
  else Except.error "status: literal started, running, completed or failed required"

/-- Dispatch of an object payload on its `type` value with `"unknown"` as
default (`payload.get("type", "unknown")`); an unknown type is logged and
dropped without raising (`Except.ok none`). -/
def dispatchByType (fields : List (String × JValue)) :
    Except String (Option TelemetryMsg) :=
  match (lookupField fields "type").getD (JValue.jstr "unknown") with
  | JValue.jstr "trade" => (decodeTrade fields).map TelemetryMsg.trade |>.map some
  | JValue.jstr "benchmark" =>
      (decodeBenchmark fields).map TelemetryMsg.benchmark |>.map some
  | JValue.jstr "benchmark_status" =>
      (decodeBenchmarkStatus fields).map TelemetryMsg.benchmarkStatus |>.map some
  | _ => Except.ok none

/-- The decode stage of `TradeSubscriber._process_message`:
`raw = none` models a `json.loads` failure; a non-object payload makes
`payload.get` raise; an object is dispatched on its `type` value. -/
def processMessageAux (raw : Option JValue) : Except String (Option TelemetryMsg) :=
  match raw with
  | none => Except.error "invalid json"
  | some (JValue.jobj fields) => dispatchByType fields
  | some _ => Except.error "payload has no attribute get"

/-- What one call of `_process_message` did: whether a decoded envelope
was handed to the handler, and which caught exception class occurred. -/
structure ProcOutcome where
  dispatched : Option TelemetryMsg
  handlerRaised : Bool
  decodeFailed : Bool

/-- `TradeSubscriber._process_message`: the whole body sits inside one
`try/except Exception`, so a decode failure or a handler exception is
caught and logged; the function always returns. The handler is an input
that either succeeds or raises (`Except.error`). -/
def processMessage (raw : Option JValue)
    (handler : TelemetryMsg → Except String Unit) : ProcOutcome :=
  match processMessageAux raw with
  | Except.error _ => { dispatched := none, handlerRaised := false, decodeFailed := true }
  | Except.ok none => { dispatched := none, handlerRaised := false, decodeFailed := false }
  | Except.ok (some m) =>
      match handler m with
      | Except.ok _ => { dispatched := some m, handlerRaised := false, decodeFailed := false }
      | Except.error _ =>
          { dispatched := some m, handlerRaised := true, decodeFailed := false }

/-- One receive event of `_message_loop`: either the bounded wait expired
or a raw message arrived (with its `json.loads` outcome). -/
inductive RecvEvent where
  | timeout
  | msg (raw : Option JValue)

/-- The phase the ingestion loop is in after handling one event. -/
inductive LoopPhase where
  | receiving
  | stopped
deriving DecidableEq, Repr

/-- One iteration of `_message_loop` while the subscriber is running: a
timeout simply re-enters receiving; a message is processed by
`_process_message` and the loop re-enters receiving — the surrounding
`except Exception` guarantees no per-message failure escapes. -/
def messageLoopStep (ev : RecvEvent)
    (handler : TelemetryMsg → Except String Unit) : LoopPhase × Option ProcOutcome :=
  match ev with
  | RecvEvent.timeout => (LoopPhase.receiving, none)
  | RecvEvent.msg raw => (LoopPhase.receiving, some (processMessage raw handler))

/-! ### Claim C6 — per-message isolation of the ingestion loop -/

/-- Claim C6: ingestion never leaves the receiving phase on a bad
message. A handler is dispatched exactly when decoding succeeds with a
known kind; a payload whose `type` is unknown is dropped without raising
and without dispatch; a non-object payload is caught and produces no
dispatch; and a raised handler exception is caught at the dispatch
boundary while the loop re-enters receiving after every event. -/
theorem ingestion_per_message_isolation (raw : Option JValue)
    (handler : TelemetryMsg → Except String Unit) (ev : RecvEvent) :
    (messageLoopStep ev handler).1 = LoopPhase.receiving ∧
    (processMessage raw handler).dispatched =
      (match processMessageAux raw with
       | Except.ok (some m) => some m
       | Except.ok none => none
       | Except.error _ => none) ∧
    (∀ fields, lookupField fields "type" = some (JValue.jstr "bogus") →
      (processMessage (some (JValue.jobj fields)) handler).dispatched = none ∧
      (processMessage (some (JValue.jobj fields)) handler).decodeFailed = false) ∧
    (processMessage (some (JValue.jstr "garbage")) handler).dispatched = none := by
  refine ⟨by cases ev <;> rfl, ?_, ?_, rfl⟩
  · unfold processMessage
    rcases h : processMessageAux raw with e | m?
    · rfl
    · rcases m? with _ | m
      · rfl
      · rcases hh : handler m with u | e <;> simp [hh]
  · intro fields hf
    have haux : processMessageAux (some (JValue.jobj fields)) = Except.ok none := by
      show dispatchByType fields = Except.ok none
      unfold dispatchByType
      rw [hf]
      rfl
    constructor <;> (unfold processMessage; rw [haux])

/-- Claim C6 (witness for `ingestion_per_message_isolation`). -/
theorem ingestion_per_message_isolation_witness :
    (messageLoopStep RecvEvent.timeout (fun _ => Except.ok ())).1
      = LoopPhase.receiving ∧
    lookupField [("type", JValue.jstr "bogus")] "type"
      = some (JValue.jstr "bogus") ∧
    (processMessage (some (JValue.jobj [("type", JValue.jstr "bogus")]))
        (fun _ => Except.ok ())).dispatched = none :=
  ⟨(ingestion_per_message_isolation none (fun _ => Except.ok ()) RecvEvent.timeout).1,
   rfl,
   ((ingestion_per_message_isolation none (fun _ => Except.ok ())
       RecvEvent.timeout).2.2.1 [("type", JValue.jstr "bogus")] rfl).1⟩

/-! ### Claim C7 — the `alert` status on the wire -/

/-- The benchmark-status message that `self_monitor.py` line 49 publishes
when an alert fires: `status` is `"alert"`. -/
def alertStatusPayload : JValue :=
  JValue.jobj [("type", JValue.jstr "benchmark_status"),
    ("status", JValue.jstr "alert"),
    ("test_name", JValue.jstr "self_monitor"),
    ("timestamp", JValue.jnum 1700000000),
    ("message", JValue.jstr "Benchmark system alert")]

/-- The same message with the status `"completed"`, which the model does
admit. -/
def completedStatusPayload : JValue :=
  JValue.jobj [("type", JValue.jstr "benchmark_status"),
    ("status", JValue.jstr "completed"),
    ("test_name", JValue.jstr "self_monitor"),
    ("timestamp", JValue.jnum 1700000000),
    ("message", JValue.jstr "Benchmark system alert")]

/-- Claim C7 (evaluation at the failing input): a `benchmark_status` wire
message with status `"alert"` and all required fields is rejected by the
pydantic literal `started|running|completed|failed` of `models.py`, so it
is caught, logged and never dispatched — while the identical message with
status `"completed"` decodes and is dispatched. The spec's wire table and
the producing side (`self_monitor.py`) both treat `"alert"` as valid. -/
theorem benchmark_status_alert_dropped
    (handler : TelemetryMsg → Except String Unit) :
    (processMessage (some alertStatusPayload) handler).dispatched = none ∧
    (processMessage (some alertStatusPayload) handler).decodeFailed = true ∧
    (processMessage (some completedStatusPayload) handler).dispatched
      = some (TelemetryMsg.benchmarkStatus
          ⟨"completed", "self_monitor", 1700000000, "Benchmark system alert"⟩) := by
  have halert : processMessageAux (some alertStatusPayload)
      = Except.error "status: literal started, running, completed or failed required" := rfl
  have hdone : processMessageAux (some completedStatusPayload)
      = Except.ok (some (TelemetryMsg.benchmarkStatus
          ⟨"completed", "self_monitor", 1700000000, "Benchmark system alert"⟩)) := rfl
  refine ⟨?_, ?_, ?_⟩
  · unfold processMessage
    rw [halert]
  · unfold processMessage
    rw [halert]
  · unfold processMessage
    rw [hdone]
    rcases hh : handler (TelemetryMsg.benchmarkStatus
        ⟨"completed", "self_monitor", 1700000000, "Benchmark system alert"⟩) with u | e <;>
      simp [hh]

/-! ### Task coordinator watchdog (`task_manager.py`) -/

/-- Completion state of one registered asyncio task: still running, done
with a normal result, done by cancellation (`task.cancelled()`), or done
with a raised exception (`task.result()` re-raises). -/
inductive TaskStatus where
  | running
  | doneOk
  | doneCancelled
  | doneFailed
deriving DecidableEq, Repr

/-- State visible to `TaskManager.catch_breaking_errors`: the registry of
named tasks in registration order, the shared `stop_signal` event, and
whether the watchdog itself is still watching. -/
structure WatchdogState where
  tasks : List (String × TaskStatus)
  stopSignal : Bool
  watching : Bool
deriving DecidableEq, Repr

/-- The scan of `catch_breaking_errors` lines 41–48: the first task in
registration order that is done, not cancelled, and whose `result()`
raises. -/
def firstFailed : List (String × TaskStatus) → Option String
  | [] => none
  | (n, s) :: rest =>
      if s = TaskStatus.doneFailed then some n else firstFailed rest

/-- One iteration of the `catch_breaking_errors` polling loop: if the
stop signal is already set the loop exits; otherwise the registry is
scanned and the first completed-with-error task sets the shared signal
and stops the watchdog; otherwise nothing changes and polling continues. -/
def watchdogStep (st : WatchdogState) : WatchdogState :=
  if st.watching = false then st
  else if st.stopSignal then { st with watching := false }
  else
    match firstFailed st.tasks with
    | some _ => { st with stopSignal := true, watching := false }
    | none => st

lemma firstFailed_eq_none_of_no_failure (tasks : List (String × TaskStatus))
    (h : ∀ t ∈ tasks, t.2 ≠ TaskStatus.doneFailed) : firstFailed tasks = none := by
  induction tasks with
  | nil => rfl
  | cons t rest ih =>
      unfold firstFailed
      obtain ⟨n, s⟩ := t
      rw [if_neg (h (n, s) (List.mem_cons_self _ _))]
      exact ih (fun u hu => h u (List.mem_cons_of_mem _ hu))

/-- Claim C8: while the watchdog is watching and the signal is unset, the
first registered activity found completed-with-error makes the step set
the shared cancellation signal and stop watching; and when no activity is
completed-with-error — in particular when activities only completed by
cancellation — the step changes nothing, so this scan is the only
automated path from activity failure to the shutdown signal. -/
theorem watchdog_failure_triggers_shutdown (st : WatchdogState)
    (hw : st.watching = true) (hs : st.stopSignal = false) :
    (∀ nm, firstFailed st.tasks = some nm →
      (watchdogStep st).stopSignal = true ∧ (watchdogStep st).watching = false) ∧
    ((∀ t ∈ st.tasks, t.2 ≠ TaskStatus.doneFailed) → watchdogStep st = st) := by
  constructor
  · intro nm hnm
    unfold watchdogStep
    rw [hw, hs]
    simp [hnm]
  · intro hnone
    unfold watchdogStep
    rw [hw, hs, firstFailed_eq_none_of_no_failure st.tasks hnone]
    simp

/-- Claim C8 (witness for `watchdog_failure_triggers_shutdown`): a
registry where activity `A` completed by cancellation and activity `B`
raised; the step fires the signal. A registry where every activity is
running, completed normally or only cancelled leaves the state unchanged. -/
theorem watchdog_failure_triggers_shutdown_witness :
    ((⟨[("A", TaskStatus.doneCancelled), ("B", TaskStatus.doneFailed)],
        false, true⟩ : WatchdogState).watching = true ∧
      (⟨[("A", TaskStatus.doneCancelled), ("B", TaskStatus.doneFailed)],
        false, true⟩ : WatchdogState).stopSignal = false ∧
      firstFailed [("A", TaskStatus.doneCancelled), ("B", TaskStatus.doneFailed)]
        = some "B" ∧
      (watchdogStep ⟨[("A", TaskStatus.doneCancelled), ("B", TaskStatus.doneFailed)],
          false, true⟩).stopSignal = true ∧
      (watchdogStep ⟨[("A", TaskStatus.doneCancelled), ("B", TaskStatus.doneFailed)],
          false, true⟩).watching = false) ∧
    ((∀ t ∈ [("A", TaskStatus.doneCancelled), ("C", TaskStatus.doneOk)],
        t.2 ≠ TaskStatus.doneFailed) ∧
      watchdogStep ⟨[("A", TaskStatus.doneCancelled), ("C", TaskStatus.doneOk)],
          false, true⟩
        = ⟨[("A", TaskStatus.doneCancelled), ("C", TaskStatus.doneOk)], false, true⟩) := by
  have hfail := watchdog_failure_triggers_shutdown
    ⟨[("A", TaskStatus.doneCancelled), ("B", TaskStatus.doneFailed)], false, true⟩ rfl rfl
  have hquiet := watchdog_failure_triggers_shutdown
    ⟨[("A", TaskStatus.doneCancelled), ("C", TaskStatus.doneOk)], false, true⟩ rfl rfl
  have hnofail : ∀ t ∈ [("A", TaskStatus.doneCancelled), ("C", TaskStatus.doneOk)],
      t.2 ≠ TaskStatus.doneFailed := by decide
  exact ⟨⟨rfl, rfl, rfl, hfail.1 "B" rfl⟩, ⟨hnofail, hquiet.2 hnofail⟩⟩

/-! ### Latency degradation analysis (`analyzer.py`) -/

/-- The data `analyze_latency_degradation` reads from one profile: the
configured rate (`config["rate"]`), the publish-stats dictionary of the
run (`none` models the empty, falsy dictionary), and the queue-full and
total counts of the result. -/
structure ProfileRow where
  rate : ℚ
  stats : Option LatencyStats
  queueFullCount : ℕ
  totalTrades : ℕ
deriving DecidableEq, Repr

/-- `stats.get("p95_us", 0)` of a kept profile. -/
def p95Of (p : ProfileRow) : ℚ :=
  match p.stats with
  | some s => s.p95Us
  | none => 0

/-- The queue-full percentage of one profile (lines 83–85):
`(queue_full_count / total_trades) * 100 if total_trades > 0 else 0`. -/
def queueFullPct (p : ProfileRow) : ℚ :=
  if 0 < p.totalTrades then
    ((p.queueFullCount : ℚ) / (p.totalTrades : ℚ)) * 100
  else 0

/-- Index of the first element satisfying the predicate: the
`for i, v in enumerate(...): if cond: ...; break` loops of the analyzer. -/
def firstIdxWhere (pred : α → Bool) : List α → Option ℕ
  | [] => none
  | x :: rest => if pred x then some 0 else (firstIdxWhere pred rest).map (· + 1)

/-- The dictionary returned by `analyze_latency_degradation`; the two
onset keys are only present (`some`) when a loop found a crossing. -/
structure DegradationAnalysis where
  rates : List ℚ
  p95LatenciesUs : List ℚ
  queueFullRatesPct : List ℚ
  p95DegradationRate : Option ℚ
  queueSaturationRate : Option ℚ

/-- The profiles the analyzer keeps: those with a truthy (non-empty)
`publish_stats` dictionary (lines 74–75). -/
def keptProfiles (profiles : List ProfileRow) : List ProfileRow :=
  profiles.filter (fun p => p.stats.isSome)

/-- `LatencyAnalyzer.analyze_latency_degradation` (lines 63–110): profiles
without publish stats are skipped; the parallel arrays of rates, p95
latencies and queue-full percentages are built; the p95 onset is the rate
at the first index whose p95 strictly exceeds twice the baseline (the
first entry), searched only when at least two entries exist; the queue
saturation onset is the rate at the first index whose queue-full
percentage strictly exceeds 1. -/
def analyzeLatencyDegradation (profiles : List ProfileRow) : DegradationAnalysis :=
  { rates := (keptProfiles profiles).map (fun p => p.rate)
    p95LatenciesUs := (keptProfiles profiles).map p95Of
    queueFullRatesPct := (keptProfiles profiles).map queueFullPct
    p95DegradationRate :=
      if 2 ≤ ((keptProfiles profiles).map p95Of).length then
        match ((keptProfiles profiles).map p95Of).head? with
        | some b =>
            (firstIdxWhere (fun v => decide (b * 2 < v))
                ((keptProfiles profiles).map p95Of)).bind
              (fun i => ((keptProfiles profiles).map (fun p => p.rate))[i]?)
        | none => none
      else none
    queueSaturationRate :=
      (firstIdxWhere (fun v => decide ((1 : ℚ) < v))
          ((keptProfiles profiles).map queueFullPct)).bind
        (fun i => ((keptProfiles profiles).map (fun p => p.rate))[i]?) }

lemma analyze_p95_field (profiles : List ProfileRow) :
    (analyzeLatencyDegradation profiles).p95DegradationRate
      = (if 2 ≤ ((keptProfiles profiles).map p95Of).length then
          match ((keptProfiles profiles).map p95Of).head? with
          | some b =>
              (firstIdxWhere (fun v => decide (b * 2 < v))
                  ((keptProfiles profiles).map p95Of)).bind
                (fun i => ((keptProfiles profiles).map (fun p => p.rate))[i]?)
          | none => none
        else none) := rfl

lemma analyze_queue_field (profiles : List ProfileRow) :
    (analyzeLatencyDegradation profiles).queueSaturationRate
      = (firstIdxWhere (fun v => decide ((1 : ℚ) < v))
          ((keptProfiles profiles).map queueFullPct)).bind
        (fun i => ((keptProfiles profiles).map (fun p => p.rate))[i]?) := rfl

/-- The claim's own description of the p95 degradation onset: the rate of
the first result whose p95 strictly exceeds 2 times the first result's
p95, absent when no result crosses. Stated from the spec's words, to be
compared with `analyzeLatencyDegradation`. -/
def specP95DegradationOnset (profiles : List ProfileRow) : Option ℚ :=
  match profiles with
  | [] => none
  | first :: _ =>
      (profiles.find? (fun p => decide (2 * p95Of first < p95Of p))).map
        (fun p => p.rate)

/-- The claim's own description of the queue saturation onset: the rate
of the first result whose `queue_full_count / total_count` ratio strictly
exceeds 1%, absent when no result crosses. Stated from the spec's words. -/
def specQueueSaturationOnset (profiles : List ProfileRow) : Option ℚ :=
  (profiles.find? (fun p =>
      decide ((1 : ℚ) / 100 < (p.queueFullCount : ℚ) / (p.totalTrades : ℚ)))).map
    (fun p => p.rate)

lemma firstIdxWhere_map_getElem (f g : α → ℚ) (pred : ℚ → Bool) (l : List α) :
    (firstIdxWhere pred (l.map f)).bind (fun i => (l.map g)[i]?)
      = (l.find? (fun a => pred (f a))).map g := by
  induction l with
  | nil => rfl
  | cons a t ih =>
      rw [List.map_cons]
      unfold firstIdxWhere
      by_cases h : pred (f a)
      · rw [if_pos h,
          List.find?_cons_of_pos t (show (fun x => pred (f x)) a = true from h)]
        simp
      · rw [if_neg h,
          List.find?_cons_of_neg t (show ¬ (fun x => pred (f x)) a = true from h),
          ← ih]
        cases hfi : firstIdxWhere pred (t.map f) with
        | none => rfl
        | some i => simp

lemma find?_congr_pred (l : List α) (p q : α → Bool)
    (h : ∀ a ∈ l, p a = q a) : l.find? p = l.find? q := by
  induction l with
  | nil => rfl
  | cons a t ih =>
      have ha := h a (List.mem_cons_self _ _)
      by_cases hp : p a
      · rw [List.find?_cons_of_pos _ hp, List.find?_cons_of_pos _ (ha ▸ hp)]
      · rw [List.find?_cons_of_neg _ hp, List.find?_cons_of_neg _ (by rw [← ha]; exact hp)]
        exact ih (fun b hb => h b (List.mem_cons_of_mem _ hb))

lemma queueFullPct_threshold (p : ProfileRow) :
    (1 < queueFullPct p) ↔
      ((1 : ℚ) / 100 < (p.queueFullCount : ℚ) / (p.totalTrades : ℚ)) := by
  unfold queueFullPct
  by_cases h : 0 < p.totalTrades
  · rw [if_pos h]
    constructor <;> intro h' <;> linarith
  · rw [if_neg h]
    have htz : (p.totalTrades : ℚ) = 0 := by
      have h0 : p.totalTrades = 0 := Nat.eq_zero_of_not_pos h
      rw [h0]
      norm_num
    rw [htz, div_zero]
    norm_num

/-- Claim C9: on a sequence of results that all carry latency stats with
non-negative p95 values, the analyzer reports exactly the onsets the spec
describes — the rate of the first result whose p95 strictly exceeds twice
the first result's p95, and the rate of the first result whose queue-full
ratio strictly exceeds 1% — and each is absent when nothing crosses. -/
theorem degradation_onsets_match_spec (profiles : List ProfileRow)
    (hstats : ∀ p ∈ profiles, p.stats.isSome = true)
    (hnonneg : ∀ p ∈ profiles, 0 ≤ p95Of p) :
    (analyzeLatencyDegradation profiles).p95DegradationRate
        = specP95DegradationOnset profiles ∧
    (analyzeLatencyDegradation profiles).queueSaturationRate
        = specQueueSaturationOnset profiles := by
  have hkept : keptProfiles profiles = profiles :=
    List.filter_eq_self.mpr hstats
  constructor
  · rw [analyze_p95_field, hkept]
    rcases profiles with _ | ⟨first, rest⟩
    · rfl
    · rcases rest with _ | ⟨second, rest'⟩
      · have hf := hnonneg first (List.mem_cons_self _ _)
        have hne : ¬ ((fun p => decide (2 * p95Of first < p95Of p)) first = true) := by
          simp only [decide_eq_true_eq]
          intro hlt
          linarith
        have hfind : List.find? (fun p => decide (2 * p95Of first < p95Of p)) [first]
            = List.find? (fun p => decide (2 * p95Of first < p95Of p)) [] :=
          List.find?_cons_of_neg [] hne
        show (none : Option ℚ)
          = (List.find? (fun p => decide (2 * p95Of first < p95Of p)) [first]).map
              (fun p => p.rate)
        rw [hfind, List.find?_nil]
        rfl
      · have hlen2 : 2 ≤ ((first :: second :: rest').map p95Of).length := by simp
        rw [if_pos hlen2]
        show (firstIdxWhere (fun v => decide (p95Of first * 2 < v))
              ((first :: second :: rest').map p95Of)).bind
            (fun i => ((first :: second :: rest').map (fun p => p.rate))[i]?)
          = specP95DegradationOnset (first :: second :: rest')
        rw [firstIdxWhere_map_getElem p95Of (fun p => p.rate)
          (fun v => decide (p95Of first * 2 < v)) (first :: second :: rest')]
        show _ = (List.find? (fun p => decide (2 * p95Of first < p95Of p))
            (first :: second :: rest')).map (fun p => p.rate)
        rw [find?_congr_pred (first :: second :: rest')
          (fun a => decide (p95Of first * 2 < p95Of a))
          (fun p => decide (2 * p95Of first < p95Of p))
          (fun a _ => by rw [decide_eq_decide, mul_comm])]
  · rw [analyze_queue_field, hkept]
    rw [firstIdxWhere_map_getElem queueFullPct (fun p => p.rate)
      (fun v => decide ((1 : ℚ) < v)) profiles]
    unfold specQueueSaturationOnset
    rw [find?_congr_pred profiles
      (fun a => decide ((1 : ℚ) < queueFullPct a))
      (fun p => decide ((1 : ℚ) / 100 < (p.queueFullCount : ℚ) / (p.totalTrades : ℚ)))
      (fun a _ => by rw [decide_eq_decide]; exact queueFullPct_threshold a)]

/-- Claim C9 (witness for `degradation_onsets_match_spec`): two sustained
results at rates 100 and 200; the second has p95 25 > 2·10 and a 5%
queue-full ratio, so both onsets are 200. -/
theorem degradation_onsets_match_spec_witness :
    (∀ p ∈ [(⟨100, some ⟨100, 1, 20, 5, 5, 10, 12⟩, 0, 1000⟩ : ProfileRow),
        ⟨200, some ⟨100, 1, 40, 8, 8, 25, 30⟩, 50, 1000⟩], p.stats.isSome = true) ∧
    (∀ p ∈ [(⟨100, some ⟨100, 1, 20, 5, 5, 10, 12⟩, 0, 1000⟩ : ProfileRow),
        ⟨200, some ⟨100, 1, 40, 8, 8, 25, 30⟩, 50, 1000⟩], 0 ≤ p95Of p) ∧
    (analyzeLatencyDegradation
        [⟨100, some ⟨100, 1, 20, 5, 5, 10, 12⟩, 0, 1000⟩,
         ⟨200, some ⟨100, 1, 40, 8, 8, 25, 30⟩, 50, 1000⟩]).p95DegradationRate
      = specP95DegradationOnset
        [⟨100, some ⟨100, 1, 20, 5, 5, 10, 12⟩, 0, 1000⟩,
         ⟨200, some ⟨100, 1, 40, 8, 8, 25, 30⟩, 50, 1000⟩] ∧
    (analyzeLatencyDegradation
        [⟨100, some ⟨100, 1, 20, 5, 5, 10, 12⟩, 0, 1000⟩,
         ⟨200, some ⟨100, 1, 40, 8, 8, 25, 30⟩, 50, 1000⟩]).queueSaturationRate
      = specQueueSaturationOnset
        [⟨100, some ⟨100, 1, 20, 5, 5, 10, 12⟩, 0, 1000⟩,
         ⟨200, some ⟨100, 1, 40, 8, 8, 25, 30⟩, 50, 1000⟩] := by
  have h := degradation_onsets_match_spec
    [⟨100, some ⟨100, 1, 20, 5, 5, 10, 12⟩, 0, 1000⟩,
     ⟨200, some ⟨100, 1, 40, 8, 8, 25, 30⟩, 50, 1000⟩]
    (by decide) (by decide)
  exact ⟨by decide, by decide, h.1, h.2⟩

end TradingTelemetry
